import Mathlib

set_option maxRecDepth 200000

/-!
Shallow embedding of the rulesync conversion core: the rules processor
(`RulesProcessor`), the skills processor and its adapter registry
(`SkillsProcessor`), and the configuration resolver (`ConfigResolver`).
File-system access, logging and frontmatter parsing are external
collaborators; functions that read files are therefore modelled as functions
of the already-parsed per-file results, and logging/warnings are returned as
explicit string lists.
-/

namespace Rulesync

/-- Tool identifiers supported by the rules processor. This mirrors the
`ToolTarget` string union restricted to `rulesProcessorToolTargets`; the
skills processor supports the subset that appears in `toolSkillFactories`. -/
inductive ToolTarget where
  | agentsmd
  | amazonqcli
  | antigravity
  | augmentcode
  | augmentcodeLegacy
  | claudecode
  | cline
  | codexcli
  | copilot
  | cursor
  | geminicli
  | junie
  | kiro
  | opencode
  | qwencode
  | roo
  | warp
  | windsurf
deriving DecidableEq

/-- The string identifier of a tool target, as used in frontmatter `targets`
lists and in error messages. -/
def ToolTarget.name : ToolTarget → String
  | .agentsmd => "agentsmd"
  | .amazonqcli => "amazonqcli"
  | .antigravity => "antigravity"
  | .augmentcode => "augmentcode"
  | .augmentcodeLegacy => "augmentcode-legacy"
  | .claudecode => "claudecode"
  | .cline => "cline"
  | .codexcli => "codexcli"
  | .copilot => "copilot"
  | .cursor => "cursor"
  | .geminicli => "geminicli"
  | .junie => "junie"
  | .kiro => "kiro"
  | .opencode => "opencode"
  | .qwencode => "qwencode"
  | .roo => "roo"
  | .warp => "warp"
  | .windsurf => "windsurf"

/-- The `rulesProcessorToolTargets` list, in source order. -/
def rulesProcessorToolTargets : List ToolTarget :=
  [.agentsmd, .amazonqcli, .antigravity, .augmentcode, .augmentcodeLegacy, .claudecode,
   .cline, .codexcli, .copilot, .cursor, .geminicli, .junie, .kiro, .opencode,
   .qwencode, .roo, .warp, .windsurf]

/-- The `rulesProcessorToolTargetsGlobal` list. -/
def rulesProcessorToolTargetsGlobal : List ToolTarget :=
  [.claudecode, .codexcli, .geminicli]

/-! ## Skills adapter registry (`skills-processor.ts`) -/

/-- Skill adapter classes appearing in the skills factory map. -/
inductive ToolSkillClass where
  | agentsmdSkill
  | claudecodeSkill
  | codexCliSkill
  | codexCliSimulatedSkill
  | copilotSkill
  | cursorSkill
  | geminiCliSkill
deriving DecidableEq

/-- Capability metadata carried by each skills factory entry. -/
structure SkillMeta where
  supportsProject : Bool
  supportsSimulated : Bool
  supportsGlobal : Bool
deriving DecidableEq

/-- A skills factory entry: the default class, an optional distinct
project-mode class, and the capability metadata. -/
structure ToolSkillFactory where
  cls : ToolSkillClass
  projectClass : Option ToolSkillClass
  meta : SkillMeta
deriving DecidableEq

/-- The `toolSkillFactories` map, entry for entry and in insertion order.
Only the `codexcli` entry declares a distinct project-mode class. -/
def toolSkillFactories : List (ToolTarget × ToolSkillFactory) :=
  [ (.agentsmd, ⟨.agentsmdSkill, none, ⟨true, true, false⟩⟩),
    (.claudecode, ⟨.claudecodeSkill, none, ⟨true, false, true⟩⟩),
    (.codexcli, ⟨.codexCliSkill, some .codexCliSimulatedSkill, ⟨true, true, true⟩⟩),
    (.copilot, ⟨.copilotSkill, none, ⟨true, true, false⟩⟩),
    (.cursor, ⟨.cursorSkill, none, ⟨true, true, false⟩⟩),
    (.geminicli, ⟨.geminiCliSkill, none, ⟨true, true, false⟩⟩) ]

/-- `skillsProcessorToolTargetsProject`: keys whose metadata has
`supportsProject` (defaulting to `true` when the lookup misses, mirroring
the `?? true` in the source). -/
def skillsProcessorToolTargetsProject : List ToolTarget :=
  (toolSkillFactories.map Prod.fst).filter fun t =>
    match toolSkillFactories.lookup t with
    | some f => f.meta.supportsProject
    | none => true

/-- `skillsProcessorToolTargetsSimulated`: keys whose metadata has
`supportsSimulated` (`?? false`). -/
def skillsProcessorToolTargetsSimulated : List ToolTarget :=
  (toolSkillFactories.map Prod.fst).filter fun t =>
    match toolSkillFactories.lookup t with
    | some f => f.meta.supportsSimulated
    | none => false

/-- `skillsProcessorToolTargetsGlobal`: keys whose metadata has
`supportsGlobal` (`?? false`). -/
def skillsProcessorToolTargetsGlobal : List ToolTarget :=
  (toolSkillFactories.map Prod.fst).filter fun t =>
    match toolSkillFactories.lookup t with
    | some f => f.meta.supportsGlobal
    | none => false

/-- A factory after mode-based class selection. -/
structure ResolvedToolSkillFactory where
  cls : ToolSkillClass
  meta : SkillMeta
deriving DecidableEq

/-- The skills `defaultGetFactory`: map lookup, failing with an
`Unsupported tool target` error naming the identifier; project mode selects
`projectClass ?? class`, global mode selects `class`. -/
def SkillsProcessor.defaultGetFactory (target : ToolTarget) (global : Bool) :
    Except String ResolvedToolSkillFactory :=
  match toolSkillFactories.lookup target with
  | none => .error ("Unsupported tool target: " ++ target.name)
  | some factory =>
      .ok { cls := if global then factory.cls else factory.projectClass.getD factory.cls,
            meta := factory.meta }

/-- `SkillsProcessor.getToolTargetsSimulated`. -/
def SkillsProcessor.getToolTargetsSimulated : List ToolTarget :=
  skillsProcessorToolTargetsSimulated

/-- `SkillsProcessor.getToolTargets`. -/
def SkillsProcessor.getToolTargets (global includeSimulated : Bool) : List ToolTarget :=
  if global then
    skillsProcessorToolTargetsGlobal
  else if !includeSimulated then
    skillsProcessorToolTargetsProject.filter
      (fun t => !skillsProcessorToolTargetsSimulated.contains t)
  else
    skillsProcessorToolTargetsProject

/-! ## Skill documents -/

/-- A canonical skill document (`RulesyncSkill`): frontmatter `name`,
`description`, `targets`, plus body and the skill directory name. A
frontmatter with no `targets` entry means "all tools" and is modelled as the
parsed default `["*"]`. -/
structure RulesyncSkill where
  name : String
  description : String
  targets : List String
  body : String
  dirName : String
deriving DecidableEq

/-- The data carried by a constructed tool skill document. -/
structure SkillData where
  name : String
  description : String
  targets : List String
  body : String
  relativeDirPath : String
  dirName : String
deriving DecidableEq

/-- A tool skill document. `native` variants round-trip; `simulated`
variants (the `SimulatedSkill` subclasses) are forward-only. -/
inductive ToolSkill where
  | native (data : SkillData)
  | simulated (data : SkillData)
deriving DecidableEq

/-- The tool target identifier each skill class targets (each class
delegates `isTargetedByRulesyncSkill` to the shared default with its own
identifier; `CodexCliSimulatedSkill` passes `"codexcli"`). -/
def ToolSkillClass.targetId : ToolSkillClass → ToolTarget
  | .agentsmdSkill => .agentsmd
  | .claudecodeSkill => .claudecode
  | .codexCliSkill => .codexcli
  | .codexCliSimulatedSkill => .codexcli
  | .copilotSkill => .copilot
  | .cursorSkill => .cursor
  | .geminiCliSkill => .geminicli

/-- Whether a skill class is a `SimulatedSkill` subclass. In the provided
sources only `CodexCliSimulatedSkill` extends `SimulatedSkill`. -/
def ToolSkillClass.isSimulatedVariant : ToolSkillClass → Bool
  | .codexCliSimulatedSkill => true
  | _ => false

/-- Modelled from the spec: the per-class skill directory. The concrete
directories live in the per-tool skill class files, of which only
`codexcli-simulated-skill.ts` (directory `.codex/skills`) is provided; the
other values are representative and no claim depends on them. -/
def ToolSkillClass.skillDir : ToolSkillClass → String
  | .codexCliSimulatedSkill => ".codex/skills"
  | .agentsmdSkill => ".agents/skills"
  | .claudecodeSkill => ".claude/skills"
  | .codexCliSkill => ".codex/skills"
  | .copilotSkill => ".github/skills"
  | .cursorSkill => ".cursor/skills"
  | .geminiCliSkill => ".gemini/skills"

/-- Modelled from the spec: `isTargetedByRulesyncSkillDefault` lives in
`tool-skill.ts`, which is not among the provided sources. Per spec 4.4 it is
true exactly when the document's `targets` includes the wildcard or the
tool's identifier, which the provided tests corroborate. -/
def isTargetedByRulesyncSkillDefault (toolTarget : ToolTarget) (r : RulesyncSkill) : Bool :=
  r.targets.contains "*" || r.targets.contains toolTarget.name

/-- Modelled from the spec: `fromRulesyncSkill` of each skill class (the
class files other than `codexcli-simulated-skill.ts` are not provided).
Per the spec's round-trip property it preserves `name`, `description` and
`body`; the class determines the directory and the Native/Simulated
variant. -/
def ToolSkillClass.fromRulesyncSkill (cls : ToolSkillClass) (r : RulesyncSkill) : ToolSkill :=
  let d : SkillData :=
    { name := r.name, description := r.description, targets := r.targets,
      body := r.body, relativeDirPath := cls.skillDir, dirName := r.dirName }
  if cls.isSimulatedVariant then .simulated d else .native d

/-- The directory path of a tool skill (`getDirPath`). -/
def ToolSkill.getDirPath : ToolSkill → String
  | .native d => d.relativeDirPath ++ "/" ++ d.dirName
  | .simulated d => d.relativeDirPath ++ "/" ++ d.dirName

/-- Modelled from the spec: the Native reverse conversion (`toRulesyncSkill`
of non-simulated classes, not among the provided sources); per the spec's
round-trip property it preserves `name`, `description` and `body`. -/
def nativeToRulesyncSkill (d : SkillData) : RulesyncSkill :=
  { name := d.name, description := d.description, targets := d.targets,
    body := d.body, dirName := d.dirName }

/-- Reverse conversion of a tool skill. Simulated variants fail with the
fixed error (message pinned by `codexcli-simulated-skill.test.ts`). -/
def ToolSkill.toRulesyncSkill : ToolSkill → Except String RulesyncSkill
  | .native d => .ok (nativeToRulesyncSkill d)
  | .simulated _ => .error "Not implemented because it is a SIMULATED skill."

/-- `SkillsProcessor.convertRulesyncDirsToToolDirs`: resolve the factory,
drop documents that fail the targeting test (mapping them to `none`), and
build tool skills via `fromRulesyncSkill`. -/
def SkillsProcessor.convertRulesyncDirsToToolDirs (toolTarget : ToolTarget) (global : Bool)
    (dirs : List RulesyncSkill) : Except String (List ToolSkill) :=
  match SkillsProcessor.defaultGetFactory toolTarget global with
  | .error e => .error e
  | .ok factory =>
      .ok ((dirs.map fun r =>
        if isTargetedByRulesyncSkillDefault factory.cls.targetId r then
          some (factory.cls.fromRulesyncSkill r)
        else none).filterMap id)

/-- `SkillsProcessor.convertToolDirsToRulesyncDirs`: Native variants are
reverse-converted; Simulated variants are skipped with a debug note. The
second component collects the debug notes. -/
def SkillsProcessor.convertToolDirsToRulesyncDirs :
    List ToolSkill → List RulesyncSkill × List String
  | [] => ([], [])
  | ToolSkill.simulated d :: rest =>
      let res := SkillsProcessor.convertToolDirsToRulesyncDirs rest
      (res.1,
        ("Skipping simulated skill conversion: " ++ (ToolSkill.simulated d).getDirPath) :: res.2)
  | ToolSkill.native d :: rest =>
      let res := SkillsProcessor.convertToolDirsToRulesyncDirs rest
      (nativeToRulesyncSkill d :: res.1, res.2)

/-- Sequencing of independent per-file parse results, as `Promise.all`:
the first failure rejects the whole batch. -/
def exceptSequence {α : Type} : List (Except String α) → Except String (List α)
  | [] => .ok []
  | Except.error e :: _ => .error e
  | Except.ok a :: rest =>
      match exceptSequence rest with
      | .ok as' => .ok (a :: as')
      | .error e => .error e

/-- `SkillsProcessor.loadToolDirs`, as a function of the per-directory parse
results: sequences them, propagating any failure (no catch). -/
def SkillsProcessor.loadToolDirs (results : List (Except String ToolSkill)) :
    Except String (List ToolSkill) :=
  exceptSequence results

/-- `SkillsProcessor.loadToolDirsToDelete` simply returns
`this.loadToolDirs()`. -/
def SkillsProcessor.loadToolDirsToDelete (results : List (Except String ToolSkill)) :
    Except String (List ToolSkill) :=
  SkillsProcessor.loadToolDirs results

/-! ## Configuration resolution (`ConfigResolver.resolve`) -/

/-- The option sources seen by `ConfigResolver.resolve` for the mode and
simulate flags: for each option, the new CLI value, the new config-file
value and (except `simulateSkills`, which has no deprecated synonym) the
deprecated CLI value and deprecated config-file value. `none` is an
undefined option. -/
structure ConfigResolveInput where
  global : Option Bool
  fileGlobal : Option Bool
  experimentalGlobal : Option Bool
  fileExperimentalGlobal : Option Bool
  simulateCommands : Option Bool
  fileSimulateCommands : Option Bool
  experimentalSimulateCommands : Option Bool
  fileExperimentalSimulateCommands : Option Bool
  simulateSubagents : Option Bool
  fileSimulateSubagents : Option Bool
  experimentalSimulateSubagents : Option Bool
  fileExperimentalSimulateSubagents : Option Bool
  simulateSkills : Option Bool
  fileSimulateSkills : Option Bool
deriving DecidableEq

/-- The resolved boolean options of the produced `Config`. -/
structure ResolvedConfig where
  global : Bool
  simulateCommands : Bool
  simulateSubagents : Bool
  simulateSkills : Bool
deriving DecidableEq

/-- Deprecation warning for `experimentalGlobal`. -/
def deprecatedGlobalWarning : String :=
  "\x27experimentalGlobal\x27 option is deprecated. Please use \x27global\x27 instead."

/-- Deprecation warning for `experimentalSimulateCommands`. -/
def deprecatedSimulateCommandsWarning : String :=
  "\x27experimentalSimulateCommands\x27 option is deprecated. Please use \x27simulateCommands\x27 instead."

/-- Deprecation warning for `experimentalSimulateSubagents`. -/
def deprecatedSimulateSubagentsWarning : String :=
  "\x27experimentalSimulateSubagents\x27 option is deprecated. Please use \x27simulateSubagents\x27 instead."

/-- `ConfigResolver.resolve` on the mode and simulate options: each option
falls back through `new CLI ?? new file ?? deprecated CLI ?? deprecated file
?? default` (`false` for all four), and a deprecation warning is emitted
whenever a deprecated value is defined from either source, before and
independently of the resolution itself. The second component is the emitted
warning list. -/
def ConfigResolver.resolve (i : ConfigResolveInput) : ResolvedConfig × List String :=
  let warnings :=
    (if (i.experimentalGlobal <|> i.fileExperimentalGlobal).isSome then
      [deprecatedGlobalWarning] else [])
    ++ (if (i.experimentalSimulateCommands <|> i.fileExperimentalSimulateCommands).isSome then
      [deprecatedSimulateCommandsWarning] else [])
    ++ (if (i.experimentalSimulateSubagents <|> i.fileExperimentalSimulateSubagents).isSome then
      [deprecatedSimulateSubagentsWarning] else [])
  ({ global :=
      i.global.getD (i.fileGlobal.getD
        (i.experimentalGlobal.getD (i.fileExperimentalGlobal.getD false))),
     simulateCommands :=
      i.simulateCommands.getD (i.fileSimulateCommands.getD
        (i.experimentalSimulateCommands.getD (i.fileExperimentalSimulateCommands.getD false))),
     simulateSubagents :=
      i.simulateSubagents.getD (i.fileSimulateSubagents.getD
        (i.experimentalSimulateSubagents.getD (i.fileExperimentalSimulateSubagents.getD false))),
     simulateSkills :=
      i.simulateSkills.getD (i.fileSimulateSkills.getD false) },
   warnings)

/-- The spec's resolution combinator, written from the spec's words: an
ordered list of sources per option, resolved by one shared first-defined-wins
rule. Used to compare the source's fallback chains against the spec. -/
def firstDefinedWins : List (Option Bool) → Bool → Bool
  | [], dflt => dflt
  | some v :: _, _ => v
  | none :: rest, dflt => firstDefinedWins rest dflt

/-! ## Canonical rule documents -/

/-- Frontmatter of a canonical rule document (`RulesyncRule`): `root`,
`targets` (`"*"` or tool identifiers; an absent entry means "all tools" and
is modelled as the parsed default `["*"]`), and the optional `description`
and `globs`. -/
structure RulesyncRuleFrontmatter where
  root : Bool
  targets : List String
  description : Option String
  globs : Option (List String)
deriving DecidableEq

/-- A canonical rule document: frontmatter, body, and its file name inside
the canonical store. -/
structure RulesyncRule where
  frontmatter : RulesyncRuleFrontmatter
  body : String
  relativeFilePath : String
deriving DecidableEq

/-- A converted tool rule document, at the granularity the rules processor
manipulates: the root flag, the rewritable file content, the description and
globs surfaced by `getDescription`/`getGlobs`, and the relative location. -/
structure ToolRule where
  root : Bool
  fileContent : String
  description : Option String
  globs : Option (List String)
  relativeDirPath : String
  relativeFilePath : String
deriving DecidableEq

/-- Modelled from the spec: the non-root rule directory per tool
(`getSettablePaths().nonRoot.relativeDirPath` of the per-tool rule classes,
which are not among the provided sources). The values are representative;
no claim depends on the particular strings. -/
def toolRuleNonRootDir : ToolTarget → String
  | .claudecode => ".claude/memories"
  | .cursor => ".cursor/rules"
  | .roo => ".roo/rules"
  | t => "." ++ t.name ++ "/rules"

/-- Modelled from the spec: the root rule file name per tool (single fixed
file, spec 3 "Path Specification"); representative values. -/
def toolRuleRootFilePath : ToolTarget → String
  | .claudecode => "CLAUDE.md"
  | .geminicli => "GEMINI.md"
  | _ => "AGENTS.md"

/-- Modelled from the spec: `isTargetedByRulesyncRule` of the rule classes
delegates to a shared default (in `tool-rule.ts`, not among the provided
sources) that is true exactly when `targets` includes the wildcard or the
tool's identifier (spec 4.4). -/
def isTargetedByRulesyncRule (t : ToolTarget) (r : RulesyncRule) : Bool :=
  r.frontmatter.targets.contains "*" || r.frontmatter.targets.contains t.name

/-- Modelled from the spec: `fromRulesyncRule` of the per-tool rule classes
(not among the provided sources). Per the spec's round-trip and end-to-end
properties it preserves the body as the document content together with the
description, globs and root flag, and places the document at the tool's root
or non-root location. -/
def ToolRule.fromRulesyncRule (t : ToolTarget) (global : Bool) (r : RulesyncRule) : ToolRule :=
  if r.frontmatter.root then
    { root := true, fileContent := r.body,
      description := r.frontmatter.description, globs := r.frontmatter.globs,
      relativeDirPath := if global then "~" else ".",
      relativeFilePath := toolRuleRootFilePath t }
  else
    { root := false, fileContent := r.body,
      description := r.frontmatter.description, globs := r.frontmatter.globs,
      relativeDirPath := toolRuleNonRootDir t,
      relativeFilePath := r.relativeFilePath }

/-- `getRelativePathFromCwd` of a tool rule. -/
def ToolRule.getRelativePathFromCwd (r : ToolRule) : String :=
  r.relativeDirPath ++ "/" ++ r.relativeFilePath

/-! ## Reference sections -/

/-- Escapes every double quote in a description, as the
`replace(/"/g, _)` call in `generateReferencesSection`. -/
def escapeQuotes (s : String) : String :=
  String.mk (s.data.foldr (fun c acc => if c = '"' then '\\' :: '"' :: acc else c :: acc) [])

/-- One line of the line-oriented references block. An undefined description
or globs renders as the string `"undefined"`, as the template literal does
on an undefined value. -/
def referenceLine (r : ToolRule) : String :=
  "@" ++ r.getRelativePathFromCwd ++ " description: \"" ++
    (match r.description with
      | some d => escapeQuotes d
      | none => "undefined") ++
    "\" applyTo: \"" ++
    (match r.globs with
      | some g => String.intercalate "," g
      | none => "undefined") ++ "\""

/-- The per-document lines of the references block: the non-root documents,
in the order of the input array. -/
def referencesLines (toolRules : List ToolRule) : List String :=
  (toolRules.filter fun r => !r.root).map referenceLine

/-- `generateReferencesSection`: empty when there is no non-root document,
otherwise the header, a blank line and one line per non-root document,
joined by newlines with a trailing blank line. -/
def generateReferencesSection (toolRules : List ToolRule) : String :=
  if (toolRules.filter fun r => !r.root).isEmpty then ""
  else
    String.intercalate "\n"
      ("Please also reference the following rules as needed:" :: "" ::
        referencesLines toolRules) ++ "\n\n"

/-- One record of the TOON references block: the `@`-prefixed path, the
description when present and truthy, and `applyTo` when globs are present
and non-empty. -/
structure ToonRuleRecord where
  path : String
  description : Option String
  applyTo : Option (List String)
deriving DecidableEq

/-- The records of the TOON references block: the non-root documents, in the
order of the input array. -/
def toonRecords (toolRules : List ToolRule) : List ToonRuleRecord :=
  (toolRules.filter fun r => !r.root).map fun r =>
    { path := "@" ++ r.getRelativePathFromCwd,
      description :=
        match r.description with
        | some d => if d = "" then none else some d
        | none => none,
      applyTo :=
        match r.globs with
        | some g => if g.isEmpty then none else some g
        | none => none }

/-! ## Additional conventions section -/

/-- Modelled from the spec: `RULESYNC_COMMANDS_RELATIVE_DIR_PATH` (the
constants file is not among the provided sources; spec 6 fixes one canonical
directory per kind). -/
def rulesyncCommandsRelativeDirPath : String := ".rulesync/commands"

/-- Modelled from the spec: `RULESYNC_SUBAGENTS_RELATIVE_DIR_PATH`. -/
def rulesyncSubagentsRelativeDirPath : String := ".rulesync/subagents"

/-- Modelled from the spec: `RULESYNC_SKILLS_RELATIVE_DIR_PATH`. -/
def rulesyncSkillsRelativeDirPath : String := ".rulesync/skills"

/-- The fixed overview paragraph of the additional-conventions section. -/
def conventionsOverview : String :=
  "# Additional Conventions Beyond the Built-in Functions\n\nAs this project\x27s AI coding tool, you must follow the additional conventions below, in addition to the built-in functions."

/-- The simulated custom slash commands instructions. -/
def commandsSectionText : String :=
  "## Simulated Custom Slash Commands\n\nCustom slash commands allow you to define frequently-used prompts as Markdown files that you can execute.\n\n### Syntax\n\nUsers can use following syntax to invoke a custom command.\n\n```txt\ns/<command> [arguments]\n```\n\nThis syntax employs a double slash (`s/`) to prevent conflicts with built-in slash commands.\nThe `s` in `s/` stands for *simulate*. Because custom slash commands are not built-in, this syntax provides a pseudo way to invoke them.\n\nWhen users call a custom slash command, you have to look for the markdown file, `" ++
  rulesyncCommandsRelativeDirPath ++
  "/\x7bcommand\x7d.md`, then execute the contents of that file as the block of operations."

/-- The simulated subagents instructions. -/
def subagentsSectionText : String :=
  "## Simulated Subagents\n\nSimulated subagents are specialized AI assistants that can be invoked to handle specific types of tasks. In this case, it can be appear something like custom slash commands simply. Simulated subagents can be called by custom slash commands.\n\nWhen users call a simulated subagent, it will look for the corresponding markdown file, `" ++
  rulesyncSubagentsRelativeDirPath ++
  "/\x7bsubagent\x7d.md`, and execute its contents as the block of operations.\n\nFor example, if the user instructs `Call planner subagent to plan the refactoring`, you have to look for the markdown file, `" ++
  rulesyncSubagentsRelativeDirPath ++
  "/planner.md`, and execute its contents as the block of operations."

/-- The simulated skills instructions. -/
def skillsSectionText : String :=
  "## Simulated Skills\n\nSimulated skills are specialized capabilities that can be invoked to handle specific types of tasks.\n\nWhen users invoke a simulated skill, look for the corresponding SKILL.md file in `" ++
  rulesyncSkillsRelativeDirPath ++
  "/\x7bskill\x7d/SKILL.md` and execute its contents as the block of operations.\n\nFor example, if the user instructs `Use the skill example-skill to achieve something`, look for `" ++
  rulesyncSkillsRelativeDirPath ++
  "/example-skill/SKILL.md` and execute its contents.\n\nAdditionally, you should proactively consider using available skills when they would help accomplish a task more effectively, even if the user doesn\x27t explicitly request them."

/-- The per-call state of a `RulesProcessor`, together with the two
simulated-capable lists owned by the commands and subagents processors
(their source files are not provided, so the lists are carried as explicit
values) and the external TOON encoder (`@toon-format/toon`, an external
library, carried as a function value). -/
structure RulesEnv where
  toolTarget : ToolTarget
  global : Bool
  simulateCommands : Bool
  simulateSubagents : Bool
  simulateSkills : Bool
  commandsSimulatedTargets : List ToolTarget
  subagentsSimulatedTargets : List ToolTarget
  toonEncode : List ToonRuleRecord → String

/-- `simulateCommands || simulateSubagents || simulateSkills`. -/
def RulesEnv.isSimulated (env : RulesEnv) : Bool :=
  env.simulateCommands || env.simulateSubagents || env.simulateSkills

/-- The sections joined by `generateAdditionalConventionsSection`: the
overview always, then each feature's section exactly when the simulate flag
is on and the tool target is in that feature's simulated-capable list — the
section being the instruction text when the call site passed that feature's
paths argument and the empty string otherwise. -/
def additionalConventionsSections (env : RulesEnv)
    (commands subagents skills : Bool) : List String :=
  [conventionsOverview]
    ++ (if env.simulateCommands && env.commandsSimulatedTargets.contains env.toolTarget then
          [if commands then commandsSectionText else ""] else [])
    ++ (if env.simulateSubagents && env.subagentsSimulatedTargets.contains env.toolTarget then
          [if subagents then subagentsSectionText else ""] else [])
    ++ (if env.simulateSkills && SkillsProcessor.getToolTargetsSimulated.contains env.toolTarget then
          [if skills then skillsSectionText else ""] else [])

/-- `generateAdditionalConventionsSection`: the sections joined by blank
lines, with a trailing blank line. The boolean arguments record which of the
optional `commands`/`subagents`/`skills` arguments the call site passed. -/
def generateAdditionalConventionsSection (env : RulesEnv)
    (commands subagents skills : Bool) : String :=
  String.intercalate "\n\n" (additionalConventionsSections env commands subagents skills) ++ "\n\n"

/-- `generateToonReferencesSection`: empty when there is no non-root
document, otherwise the TOON header, a blank line and the encoded records,
joined by newlines with a trailing blank line. -/
def generateToonReferencesSection (env : RulesEnv) (toolRules : List ToolRule) : String :=
  if (toolRules.filter fun r => !r.root).isEmpty then ""
  else
    String.intercalate "\n"
      ["Please also reference the following rules as needed. The list below is provided in TOON format, and `@` stands for the project root directory.",
       "", env.toonEncode (toonRecords toolRules)] ++ "\n\n"

/-- The synthetic Cursor additional-conventions rule pushed when any
simulate flag is on: a non-root `.mdc` document whose content is the
conventions section with the commands, subagents and skills paths passed. -/
def cursorAdditionalConventionsRule (env : RulesEnv) : ToolRule :=
  { root := false,
    fileContent := generateAdditionalConventionsSection env true true true,
    description := none, globs := none,
    relativeDirPath := toolRuleNonRootDir .cursor,
    relativeFilePath := "additional-conventions.mdc" }

/-- The synthetic Roo additional-conventions rule pushed when any simulate
flag is on: a non-root document whose content is the conventions section
with the commands and subagents paths passed. -/
def rooAdditionalConventionsRule (env : RulesEnv) : ToolRule :=
  { root := false,
    fileContent := generateAdditionalConventionsSection env true true false,
    description := none, globs := none,
    relativeDirPath := toolRuleNonRootDir .roo,
    relativeFilePath := "additional-conventions.md" }

/-- Rewrite of the document at index `i` (`rootRule?.setFileContent`),
leaving the list unchanged when the index is out of range. -/
def setContentAt (toolRules : List ToolRule) (i : Nat) (f : String → String) : List ToolRule :=
  match toolRules[i]? with
  | some r => toolRules.set i { r with fileContent := f r.fileContent }
  | none => toolRules

/-- The per-tool root-document content injection switch of
`convertRulesyncFilesToToolFiles`, applied once a root document was found at
index `i`. Tools not named in the switch leave the list unchanged. -/
def injectRootSections (env : RulesEnv) (toolRules : List ToolRule) (i : Nat) : List ToolRule :=
  match env.toolTarget with
  | .agentsmd =>
      setContentAt toolRules i fun old =>
        generateToonReferencesSection env toolRules ++
          generateAdditionalConventionsSection env true true false ++ old
  | .augmentcodeLegacy =>
      setContentAt toolRules i fun old =>
        generateToonReferencesSection env toolRules ++ old
  | .claudecode =>
      setContentAt toolRules i fun old =>
        generateReferencesSection toolRules ++ old
  | .codexcli =>
      setContentAt toolRules i fun old =>
        generateToonReferencesSection env toolRules ++
          generateAdditionalConventionsSection env false true true ++ old
  | .copilot =>
      setContentAt toolRules i fun old =>
        generateAdditionalConventionsSection env true true true ++ old
  | .geminicli =>
      setContentAt toolRules i fun old =>
        generateToonReferencesSection env toolRules ++
          generateAdditionalConventionsSection env true true false ++ old
  | .kiro =>
      setContentAt toolRules i fun old =>
        generateToonReferencesSection env toolRules ++ old
  | .opencode =>
      setContentAt toolRules i fun old =>
        generateToonReferencesSection env toolRules ++ old
  | .qwencode =>
      setContentAt toolRules i fun old =>
        generateToonReferencesSection env toolRules ++ old
  | .warp =>
      setContentAt toolRules i fun old =>
        generateToonReferencesSection env toolRules ++ old
  | _ => toolRules

/-- The targeted conversion step of `convertRulesyncFilesToToolFiles`:
documents failing `isTargetedByRulesyncRule` map to `null` and are filtered
out. -/
def targetedToolRules (env : RulesEnv) (rules : List RulesyncRule) : List ToolRule :=
  (rules.map fun r =>
    if isTargetedByRulesyncRule env.toolTarget r then
      some (ToolRule.fromRulesyncRule env.toolTarget env.global r)
    else none).filterMap id

/-- `RulesProcessor.convertRulesyncFilesToToolFiles`: targeted conversion,
then the synthetic Cursor/Roo additional-conventions document when any
simulate flag is on, then — when some resulting document is root — the
per-tool root content injection. -/
def RulesProcessor.convertRulesyncFilesToToolFiles (env : RulesEnv)
    (rules : List RulesyncRule) : List ToolRule :=
  let toolRules := targetedToolRules env rules
  let toolRules :=
    if env.isSimulated ∧ env.toolTarget = ToolTarget.cursor then
      toolRules ++ [cursorAdditionalConventionsRule env]
    else toolRules
  let toolRules :=
    if env.isSimulated ∧ env.toolTarget = ToolTarget.roo then
      toolRules ++ [rooAdditionalConventionsRule env]
    else toolRules
  match toolRules.findIdx? (fun r => r.root) with
  | none => toolRules
  | some i => injectRootSections env toolRules i

/-! ## Canonical and tool rule loading -/

/-- The warning emitted by the global-mode canonical load. -/
def globalIgnoreWarning (n : Nat) : String :=
  toString n ++ " non-root rulesync rules found, but it\x27s in global mode, so ignoring them"

/-- `RulesProcessor.loadRulesyncFiles`, as a function of the parsed
documents: fails when more than one document is root; in global mode returns
only the root documents and warns when non-root documents were found;
otherwise returns every document. The second component is the emitted
warning list. -/
def RulesProcessor.loadRulesyncFiles (global : Bool) (rules : List RulesyncRule) :
    Except String (List RulesyncRule × List String) :=
  let rootRules := rules.filter fun r => r.frontmatter.root
  if rootRules.length > 1 then
    .error "Multiple root rulesync rules found"
  else if global then
    let nonRootRules := rules.filter fun r => !r.frontmatter.root
    .ok (rootRules,
      if nonRootRules.length > 0 then [globalIgnoreWarning nonRootRules.length] else [])
  else
    .ok (rules, [])

/-- `RulesProcessor.loadToolFiles`, as a function of the per-file parse
results for the root and non-root locations. The body awaits the root batch
then the non-root batch and concatenates them; the surrounding `try`/`catch`
turns any failure into a logged error and an empty list, and the
`forDeletion` flag is bound as `_forDeletion` and never read. The outer
`Except` is the call's own throw behaviour; the second component of a
successful result is the logged error list. -/
def RulesProcessor.loadToolFiles (_forDeletion : Bool)
    (rootResults nonRootResults : List (Except String ToolRule)) :
    Except String (List ToolRule × List String) :=
  match exceptSequence rootResults with
  | .error e => .ok ([], ["Failed to load tool files: " ++ e])
  | .ok roots =>
      match exceptSequence nonRootResults with
      | .error e => .ok ([], ["Failed to load tool files: " ++ e])
      | .ok nonRoots => .ok (roots ++ nonRoots, [])

/-! ## Helper lemmas -/

lemma filterMap_if_eq_map_filter {α β : Type} (p : α → Bool) (f : α → β) (l : List α) :
    l.filterMap (fun a => if p a then some (f a) else none) = (l.filter p).map f := by
  induction l with
  | nil => rfl
  | cons a l ih => cases hpa : p a <;> simp [hpa, ih]

lemma mem_ite_nil {α : Type} (p : Prop) [Decidable p] (x : α) (l : List α) :
    (x ∈ if p then l else []) ↔ p ∧ x ∈ l := by
  by_cases h : p <;> simp [h]

lemma setContentAt_length (l : List ToolRule) (i : Nat) (f : String → String) :
    (setContentAt l i f).length = l.length := by
  unfold setContentAt
  cases hx : l[i]? <;> simp

lemma commandsText_ne_overview : commandsSectionText ≠ conventionsOverview := by decide

lemma commandsText_ne_subagentsText : commandsSectionText ≠ subagentsSectionText := by decide

lemma commandsText_ne_skillsText : commandsSectionText ≠ skillsSectionText := by decide

lemma commandsText_ne_empty : commandsSectionText ≠ "" := by decide

lemma subagentsText_ne_overview : subagentsSectionText ≠ conventionsOverview := by decide

lemma subagentsText_ne_commandsText : subagentsSectionText ≠ commandsSectionText := by decide

lemma subagentsText_ne_skillsText : subagentsSectionText ≠ skillsSectionText := by decide

lemma subagentsText_ne_empty : subagentsSectionText ≠ "" := by decide

lemma skillsText_ne_overview : skillsSectionText ≠ conventionsOverview := by decide

lemma skillsText_ne_commandsText : skillsSectionText ≠ commandsSectionText := by decide

lemma skillsText_ne_subagentsText : skillsSectionText ≠ subagentsSectionText := by decide

lemma skillsText_ne_empty : skillsSectionText ≠ "" := by decide

/-! ## Theorems -/

/-- C4: loading the canonical rule store fails with the multiple-root error
whenever two or more loaded documents are root, for every store contents and
in both modes; with exactly one root document the load succeeds and that
document appears in the output as its unique root. -/
theorem C4_multiple_root (global : Bool) (rules : List RulesyncRule) :
    (2 ≤ (rules.filter fun r => r.frontmatter.root).length →
      RulesProcessor.loadRulesyncFiles global rules =
        .error "Multiple root rulesync rules found") ∧
    (∀ r, (rules.filter fun d => d.frontmatter.root) = [r] →
      ∃ out warnings,
        RulesProcessor.loadRulesyncFiles global rules = .ok (out, warnings) ∧
          r ∈ out ∧ (out.filter fun d => d.frontmatter.root) = [r]) := by
  constructor
  · intro h
    unfold RulesProcessor.loadRulesyncFiles
    simp only [if_pos (by omega : (rules.filter fun r => r.frontmatter.root).length > 1)]
  · intro r hr
    have hroot : r.frontmatter.root = true := by
      have : r ∈ rules.filter fun d => d.frontmatter.root := by
        rw [hr]; exact List.mem_singleton_self r
      exact (List.mem_filter.mp this).2
    have hlen : ¬ (rules.filter fun d => d.frontmatter.root).length > 1 := by
      rw [hr]; simp
    unfold RulesProcessor.loadRulesyncFiles
    rw [if_neg hlen]
    by_cases hg : global
    · refine ⟨rules.filter fun d => d.frontmatter.root, _, by rw [if_pos hg], ?_, ?_⟩
      · rw [hr]; exact List.mem_singleton_self r
      · rw [hr]; simp [hroot]
    · refine ⟨rules, [], by rw [if_neg hg], ?_, hr⟩
      have : r ∈ rules.filter fun d => d.frontmatter.root := by
        rw [hr]; exact List.mem_singleton_self r
      exact (List.mem_filter.mp this).1

/-- Witness for C4 at concrete inputs: a store with two root documents
fails, and a store with exactly one root document loads with that document
as its unique root. -/
theorem C4_multiple_root_witness :
    (RulesProcessor.loadRulesyncFiles false
        [⟨⟨true, ["*"], none, none⟩, "A", "a.md"⟩, ⟨⟨true, ["*"], none, none⟩, "B", "b.md"⟩] =
      .error "Multiple root rulesync rules found") ∧
    (∃ out warnings,
      RulesProcessor.loadRulesyncFiles false
          [⟨⟨true, ["*"], none, none⟩, "A", "a.md"⟩, ⟨⟨false, ["*"], none, none⟩, "B", "b.md"⟩] =
        .ok (out, warnings) ∧
        (⟨⟨true, ["*"], none, none⟩, "A", "a.md"⟩ : RulesyncRule) ∈ out ∧
        (out.filter fun d => d.frontmatter.root) = [⟨⟨true, ["*"], none, none⟩, "A", "a.md"⟩]) :=
  ⟨(C4_multiple_root false _).1 (by decide),
   (C4_multiple_root false _).2 _ (by decide)⟩

/-- C8: in global mode the canonical load (when it does not fail on the
multiple-root invariant) returns exactly the root documents — every non-root
document is excluded — and succeeds with a warning stating how many non-root
documents were ignored exactly when at least one was found. -/
theorem C8_global_load (rules : List RulesyncRule)
    (h : ¬ (rules.filter fun r => r.frontmatter.root).length > 1) :
    RulesProcessor.loadRulesyncFiles true rules =
      .ok (rules.filter fun r => r.frontmatter.root,
        if (rules.filter fun r => !r.frontmatter.root).length > 0 then
          [globalIgnoreWarning (rules.filter fun r => !r.frontmatter.root).length]
        else []) ∧
    ∀ d ∈ rules.filter fun r => r.frontmatter.root, d.frontmatter.root = true := by
  constructor
  · unfold RulesProcessor.loadRulesyncFiles
    rw [if_neg h, if_pos rfl]
  · intro d hd
    exact (List.mem_filter.mp hd).2

/-- Witness for C8 at a concrete store with one root and two non-root
documents: only the root document is returned, with the two-ignored
warning. -/
theorem C8_global_load_witness :
    RulesProcessor.loadRulesyncFiles true
        [⟨⟨true, ["*"], none, none⟩, "A", "a.md"⟩,
         ⟨⟨false, ["*"], none, none⟩, "B", "b.md"⟩,
         ⟨⟨false, ["*"], none, none⟩, "C", "c.md"⟩] =
      .ok ([⟨⟨true, ["*"], none, none⟩, "A", "a.md"⟩],
        [globalIgnoreWarning 2]) := by
  have := (C8_global_load
    [⟨⟨true, ["*"], none, none⟩, "A", "a.md"⟩,
     ⟨⟨false, ["*"], none, none⟩, "B", "b.md"⟩,
     ⟨⟨false, ["*"], none, none⟩, "C", "c.md"⟩] (by decide)).1
  simpa using this

/-- C5: for every registered tool identifier, project-mode resolution
returns the declared project-mode class when there is one and the default
class otherwise, global-mode resolution always returns the default class,
and an unregistered identifier fails with the unsupported-target error
naming the identifier. -/
theorem C5_registry_mode_selection :
    (∀ t factory, toolSkillFactories.lookup t = some factory →
      SkillsProcessor.defaultGetFactory t false =
        .ok ⟨factory.projectClass.getD factory.cls, factory.meta⟩ ∧
      SkillsProcessor.defaultGetFactory t true = .ok ⟨factory.cls, factory.meta⟩) ∧
    (∀ t g, toolSkillFactories.lookup t = none →
      SkillsProcessor.defaultGetFactory t g =
        .error ("Unsupported tool target: " ++ t.name)) := by
  constructor
  · intro t factory h
    constructor <;> simp [SkillsProcessor.defaultGetFactory, h]
  · intro t g h
    simp [SkillsProcessor.defaultGetFactory, h]

/-- Witness for C5 at concrete identifiers: `codexcli` declares the distinct
project class `CodexCliSimulatedSkill` and keeps `CodexCliSkill` for global
mode, `cursor` resolves to the same class in both modes, and the
unregistered `roo` fails naming itself. -/
theorem C5_registry_mode_selection_witness :
    (SkillsProcessor.defaultGetFactory .codexcli false =
        .ok ⟨.codexCliSimulatedSkill, ⟨true, true, true⟩⟩ ∧
      SkillsProcessor.defaultGetFactory .codexcli true =
        .ok ⟨.codexCliSkill, ⟨true, true, true⟩⟩) ∧
    (SkillsProcessor.defaultGetFactory .cursor false =
        .ok ⟨.cursorSkill, ⟨true, true, false⟩⟩ ∧
      SkillsProcessor.defaultGetFactory .cursor true =
        .ok ⟨.cursorSkill, ⟨true, true, false⟩⟩) ∧
    SkillsProcessor.defaultGetFactory .roo false =
      .error ("Unsupported tool target: " ++ ToolTarget.name .roo) :=
  ⟨C5_registry_mode_selection.1 .codexcli
      ⟨.codexCliSkill, some .codexCliSimulatedSkill, ⟨true, true, true⟩⟩ (by decide),
   C5_registry_mode_selection.1 .cursor
      ⟨.cursorSkill, none, ⟨true, true, false⟩⟩ (by decide),
   C5_registry_mode_selection.2 .roo false (by decide)⟩

/-- C7: reverse conversion of any Simulated skill fails with the fixed
simulated-conversion error regardless of its data, and
`convertToolDirsToRulesyncDirs` returns canonical documents for exactly the
Native variants while each Simulated variant contributes only a debug
note. -/
theorem C7_simulated_reverse_rejection :
    (∀ d : SkillData,
      ToolSkill.toRulesyncSkill (.simulated d) =
        .error "Not implemented because it is a SIMULATED skill.") ∧
    (∀ dirs : List ToolSkill,
      (SkillsProcessor.convertToolDirsToRulesyncDirs dirs).1 =
        dirs.filterMap fun s =>
          match s with
          | .native d => some (nativeToRulesyncSkill d)
          | .simulated _ => none) ∧
    (∀ dirs : List ToolSkill,
      (SkillsProcessor.convertToolDirsToRulesyncDirs dirs).2 =
        (dirs.filter fun s =>
          match s with
          | .native _ => false
          | .simulated _ => true).map
            fun s => "Skipping simulated skill conversion: " ++ s.getDirPath) := by
  refine ⟨fun _ => rfl, fun dirs => ?_, fun dirs => ?_⟩
  · induction dirs with
    | nil => rfl
    | cons s rest ih => cases s <;> simp [SkillsProcessor.convertToolDirsToRulesyncDirs, ih]
  · induction dirs with
    | nil => rfl
    | cons s rest ih => cases s <;> simp [SkillsProcessor.convertToolDirsToRulesyncDirs, ih]

/-- C1 counterexample: a conversion-oriented load (`forDeletion = false`)
over one file whose parse fails does not propagate the error — the
`try`/`catch` swallows it and the call returns an empty list with a logged
error, contrary to the claimed fail-fast behaviour. -/
theorem C1_conversion_load_does_not_propagate :
    RulesProcessor.loadToolFiles false [Except.error "failed to parse frontmatter"] [] =
      .ok ([], ["Failed to load tool files: failed to parse frontmatter"]) ∧
    RulesProcessor.loadToolFiles false [Except.error "failed to parse frontmatter"] [] ≠
      .error "failed to parse frontmatter" := by
  refine ⟨rfl, fun h => ?_⟩
  rw [show RulesProcessor.loadToolFiles false [Except.error "failed to parse frontmatter"] [] =
    .ok ([], ["Failed to load tool files: failed to parse frontmatter"]) from rfl] at h
  exact Except.noConfusion h

/-- C1 (amended): `loadToolFiles` never throws for either value of
`forDeletion` — a failing parse in the root or non-root batch yields an
empty list plus a logged error, and an all-successful load yields the
concatenated batches — and the skills `loadToolDirsToDelete` returns exactly
`loadToolDirs` on every input. -/
theorem C1_load_error_policy :
    (∀ fd (rootResults nonRootResults : List (Except String ToolRule)),
      RulesProcessor.loadToolFiles fd rootResults nonRootResults =
        RulesProcessor.loadToolFiles (!fd) rootResults nonRootResults) ∧
    (∀ fd (rootResults nonRootResults : List (Except String ToolRule)) e,
      exceptSequence rootResults = .error e →
        RulesProcessor.loadToolFiles fd rootResults nonRootResults =
          .ok ([], ["Failed to load tool files: " ++ e])) ∧
    (∀ fd (rootResults nonRootResults : List (Except String ToolRule)) roots e,
      exceptSequence rootResults = .ok roots →
      exceptSequence nonRootResults = .error e →
        RulesProcessor.loadToolFiles fd rootResults nonRootResults =
          .ok ([], ["Failed to load tool files: " ++ e])) ∧
    (∀ fd (rootResults nonRootResults : List (Except String ToolRule)) roots nonRoots,
      exceptSequence rootResults = .ok roots →
      exceptSequence nonRootResults = .ok nonRoots →
        RulesProcessor.loadToolFiles fd rootResults nonRootResults =
          .ok (roots ++ nonRoots, [])) ∧
    (∀ results : List (Except String ToolSkill),
      SkillsProcessor.loadToolDirsToDelete results = SkillsProcessor.loadToolDirs results) := by
  refine ⟨fun fd r n => rfl, fun fd r n e h => ?_, fun fd r n roots e h1 h2 => ?_,
    fun fd r n roots nonRoots h1 h2 => ?_, fun results => rfl⟩
  · simp [RulesProcessor.loadToolFiles, h]
  · simp [RulesProcessor.loadToolFiles, h1, h2]
  · simp [RulesProcessor.loadToolFiles, h1, h2]

/-- Witness for C1's amended statement at concrete inputs: a failing root
batch is caught for both flag values, a clean load concatenates, and the
skills deletion load coincides with the plain load on a concrete batch. -/
theorem C1_load_error_policy_witness :
    (RulesProcessor.loadToolFiles true [Except.error "bad file"] [] =
      .ok ([], ["Failed to load tool files: bad file"])) ∧
    (RulesProcessor.loadToolFiles false []
        [Except.ok { root := false, fileContent := "x", description := none, globs := none,
                     relativeDirPath := ".cursor/rules", relativeFilePath := "x.md" }] =
      .ok ([{ root := false, fileContent := "x", description := none, globs := none,
              relativeDirPath := ".cursor/rules", relativeFilePath := "x.md" }], [])) ∧
    SkillsProcessor.loadToolDirsToDelete [Except.error "broken skill"] =
      SkillsProcessor.loadToolDirs [Except.error "broken skill"] :=
  ⟨C1_load_error_policy.2.1 true [Except.error "bad file"] [] "bad file" rfl,
   C1_load_error_policy.2.2.2.1 false [] _ [] _ rfl rfl,
   C1_load_error_policy.2.2.2.2 [Except.error "broken skill"]⟩

/-- C6: each of the `global`, `simulateCommands` and `simulateSubagents`
options resolves by first-defined-wins over the ordered sources (new CLI,
new config file, deprecated CLI, deprecated config file, default `false`),
so a defined new option always beats its deprecated synonyms; the matching
deprecation warning is emitted exactly when a deprecated value is defined
from either source, independently of whether it was used, and resolution
always produces a configuration. -/
theorem C6_option_precedence (i : ConfigResolveInput) :
    ((ConfigResolver.resolve i).1.global =
      firstDefinedWins
        [i.global, i.fileGlobal, i.experimentalGlobal, i.fileExperimentalGlobal] false) ∧
    ((ConfigResolver.resolve i).1.simulateCommands =
      firstDefinedWins
        [i.simulateCommands, i.fileSimulateCommands,
         i.experimentalSimulateCommands, i.fileExperimentalSimulateCommands] false) ∧
    ((ConfigResolver.resolve i).1.simulateSubagents =
      firstDefinedWins
        [i.simulateSubagents, i.fileSimulateSubagents,
         i.experimentalSimulateSubagents, i.fileExperimentalSimulateSubagents] false) ∧
    (∀ v, i.global = some v → (ConfigResolver.resolve i).1.global = v) ∧
    (∀ v, i.simulateCommands = some v → (ConfigResolver.resolve i).1.simulateCommands = v) ∧
    (∀ v, i.simulateSubagents = some v → (ConfigResolver.resolve i).1.simulateSubagents = v) ∧
    ((i.experimentalGlobal.isSome ∨ i.fileExperimentalGlobal.isSome) ↔
      deprecatedGlobalWarning ∈ (ConfigResolver.resolve i).2) ∧
    ((i.experimentalSimulateCommands.isSome ∨ i.fileExperimentalSimulateCommands.isSome) ↔
      deprecatedSimulateCommandsWarning ∈ (ConfigResolver.resolve i).2) ∧
    ((i.experimentalSimulateSubagents.isSome ∨ i.fileExperimentalSimulateSubagents.isSome) ↔
      deprecatedSimulateSubagentsWarning ∈ (ConfigResolver.resolve i).2) := by
  obtain ⟨g, fg, eg, feg, sc, fsc, esc, fesc, ss, fss, ess, fess, sk, fsk⟩ := i
  refine ⟨?_, ?_, ?_, ?_, ?_, ?_, ?_, ?_, ?_⟩
  · cases g <;> cases fg <;> cases eg <;> cases feg <;> rfl
  · cases sc <;> cases fsc <;> cases esc <;> cases fesc <;> rfl
  · cases ss <;> cases fss <;> cases ess <;> cases fess <;> rfl
  · intro v hv; cases hv; rfl
  · intro v hv; cases hv; rfl
  · intro v hv; cases hv; rfl
  · cases eg <;> cases feg <;>
      simp [ConfigResolver.resolve, deprecatedGlobalWarning,
        deprecatedSimulateCommandsWarning, deprecatedSimulateSubagentsWarning]
  · cases esc <;> cases fesc <;>
      simp [ConfigResolver.resolve, deprecatedGlobalWarning,
        deprecatedSimulateCommandsWarning, deprecatedSimulateSubagentsWarning]
  · cases ess <;> cases fess <;>
      simp [ConfigResolver.resolve, deprecatedGlobalWarning,
        deprecatedSimulateCommandsWarning, deprecatedSimulateSubagentsWarning]

/-- Witness for C6 at a concrete input where `global` is defined both as a
new CLI option and as a deprecated config-file option: the new value wins
and the deprecation warning for `experimentalGlobal` is still emitted. -/
theorem C6_option_precedence_witness :
    (ConfigResolver.resolve
        ⟨some false, none, none, some true, none, none, some true, none,
         none, none, none, none, none, none⟩).1.global = false ∧
    deprecatedGlobalWarning ∈
      (ConfigResolver.resolve
        ⟨some false, none, none, some true, none, none, some true, none,
         none, none, none, none, none, none⟩).2 :=
  ⟨(C6_option_precedence _).2.2.2.1 false rfl,
   ((C6_option_precedence _).2.2.2.2.2.2.1).mp (Or.inr (by decide))⟩

/-- C9: for any mode and any registered tool, the skills conversion maps
exactly the canonical documents passing the targeting test to tool documents
(the rest yield no output and no error); the resolved class targets the
registry key itself, a wildcard `targets` entry passes the test for every
registered tool, and the test passes only when `targets` holds the wildcard
or the tool's identifier. Likewise for the rules processor: its targeted
conversion step is exactly the filter-then-convert of the targeted
documents, `convertRulesyncFilesToToolFiles` (with the simulate flags off,
so no synthetic document is appended) produces exactly those documents up
to the length-preserving root content injection, a wildcard document is
targeted by every rules tool target, and the test passes only via the
wildcard or the tool's identifier. -/
theorem C9_targeting (t : ToolTarget) (g : Bool) (f : ResolvedToolSkillFactory)
    (hf : SkillsProcessor.defaultGetFactory t g = .ok f) :
    (∀ dirs, SkillsProcessor.convertRulesyncDirsToToolDirs t g dirs =
      .ok ((dirs.filter fun r => isTargetedByRulesyncSkillDefault f.cls.targetId r).map
        f.cls.fromRulesyncSkill)) ∧
    f.cls.targetId = t ∧
    (∀ r : RulesyncSkill, r.targets.contains "*" = true →
      isTargetedByRulesyncSkillDefault f.cls.targetId r = true) ∧
    (∀ r : RulesyncSkill, isTargetedByRulesyncSkillDefault f.cls.targetId r = true →
      r.targets.contains "*" = true ∨ r.targets.contains t.name = true) ∧
    (∀ (env : RulesEnv) (rules : List RulesyncRule),
      targetedToolRules env rules =
        (rules.filter fun r => isTargetedByRulesyncRule env.toolTarget r).map
          (ToolRule.fromRulesyncRule env.toolTarget env.global)) ∧
    (∀ (env : RulesEnv) (rules : List RulesyncRule), env.isSimulated = false →
      RulesProcessor.convertRulesyncFilesToToolFiles env rules =
        match (targetedToolRules env rules).findIdx? (fun r => r.root) with
        | none => targetedToolRules env rules
        | some i => injectRootSections env (targetedToolRules env rules) i) ∧
    (∀ (env : RulesEnv) (l : List ToolRule) (i : Nat),
      (injectRootSections env l i).length = l.length) ∧
    (∀ (t' : ToolTarget) (r : RulesyncRule), r.frontmatter.targets.contains "*" = true →
      isTargetedByRulesyncRule t' r = true) ∧
    (∀ (t' : ToolTarget) (r : RulesyncRule), isTargetedByRulesyncRule t' r = true →
      r.frontmatter.targets.contains "*" = true ∨
        r.frontmatter.targets.contains t'.name = true) := by
  have hid : f.cls.targetId = t := by
    cases t <;> cases g <;>
      first
        | exact Except.noConfusion hf
        | (injection hf with h; rw [← h]; rfl)
  refine ⟨fun dirs => ?_, hid, fun r h => ?_, fun r h => ?_,
    fun env rules => ?_, fun env rules h => ?_, fun env l i => ?_,
    fun t' r h => ?_, fun t' r h => ?_⟩
  · simp [SkillsProcessor.convertRulesyncDirsToToolDirs, hf, filterMap_if_eq_map_filter]
  · simp only [isTargetedByRulesyncSkillDefault, h, Bool.true_or]
  · rw [hid] at h
    have h' : ("*" ∈ r.targets) ∨ (t.name ∈ r.targets) := by
      simpa [isTargetedByRulesyncSkillDefault] using h
    rcases h' with h' | h'
    · exact Or.inl (by simpa using h')
    · exact Or.inr (by simpa using h')
  · simp [targetedToolRules, filterMap_if_eq_map_filter]
  · unfold RulesProcessor.convertRulesyncFilesToToolFiles
    simp [h]
  · rcases env with ⟨tt, g', sc, ss, sk, cl, sl, te⟩
    cases tt <;> simp [injectRootSections, setContentAt_length]
  · simp only [isTargetedByRulesyncRule, h, Bool.true_or]
  · have h' : ("*" ∈ r.frontmatter.targets) ∨ (t'.name ∈ r.frontmatter.targets) := by
      simpa [isTargetedByRulesyncRule] using h
    rcases h' with h' | h'
    · exact Or.inl (by simpa using h')
    · exact Or.inr (by simpa using h')

/-- Witness for C9 at the project-mode codexcli registry entry and a
concrete canonical load of one wildcard-targeted skill and one skill
targeting only claudecode (only the wildcard document converts, with no
error), plus the rules processor at cline over one wildcard-targeted and
one claudecode-only rule with the simulate flags off: only the wildcard
document is produced, it is targeted by cline, and the claudecode-only
document fails the test. -/
theorem C9_targeting_witness :
    SkillsProcessor.convertRulesyncDirsToToolDirs .codexcli false
        [⟨"all-skill", "d1", ["*"], "b1", "all-skill"⟩,
         ⟨"cc-skill", "d2", ["claudecode"], "b2", "cc-skill"⟩] =
      .ok ((([⟨"all-skill", "d1", ["*"], "b1", "all-skill"⟩,
              ⟨"cc-skill", "d2", ["claudecode"], "b2", "cc-skill"⟩] : List RulesyncSkill).filter
          fun r =>
            isTargetedByRulesyncSkillDefault ToolSkillClass.codexCliSimulatedSkill.targetId r).map
        ToolSkillClass.codexCliSimulatedSkill.fromRulesyncSkill) ∧
    (([⟨"all-skill", "d1", ["*"], "b1", "all-skill"⟩,
       ⟨"cc-skill", "d2", ["claudecode"], "b2", "cc-skill"⟩] : List RulesyncSkill).filter
        fun r =>
          isTargetedByRulesyncSkillDefault ToolSkillClass.codexCliSimulatedSkill.targetId r) =
      [⟨"all-skill", "d1", ["*"], "b1", "all-skill"⟩] ∧
    RulesProcessor.convertRulesyncFilesToToolFiles
        ⟨.cline, false, false, false, false, [], [], fun _ => ""⟩
        [⟨⟨false, ["*"], none, none⟩, "A", "a.md"⟩,
         ⟨⟨false, ["claudecode"], none, none⟩, "B", "b.md"⟩] =
      [ToolRule.fromRulesyncRule .cline false ⟨⟨false, ["*"], none, none⟩, "A", "a.md"⟩] ∧
    isTargetedByRulesyncRule .cline ⟨⟨false, ["*"], none, none⟩, "A", "a.md"⟩ = true ∧
    isTargetedByRulesyncRule .cline ⟨⟨false, ["claudecode"], none, none⟩, "B", "b.md"⟩ =
      false :=
  ⟨(C9_targeting .codexcli false ⟨.codexCliSimulatedSkill, ⟨true, true, true⟩⟩ rfl).1 _,
   by decide,
   by
    rw [(C9_targeting .codexcli false ⟨.codexCliSimulatedSkill, ⟨true, true, true⟩⟩
      rfl).2.2.2.2.2.1 ⟨.cline, false, false, false, false, [], [], fun _ => ""⟩
      [⟨⟨false, ["*"], none, none⟩, "A", "a.md"⟩,
       ⟨⟨false, ["claudecode"], none, none⟩, "B", "b.md"⟩] rfl]
    decide,
   (C9_targeting .codexcli false ⟨.codexCliSimulatedSkill, ⟨true, true, true⟩⟩
      rfl).2.2.2.2.2.2.2.1 .cline _ (by decide),
   by decide⟩

/-- C10: for the cursor and roo targets with at least one simulate flag on,
the conversion output is always the targeted conversions followed by exactly
one synthetic additional-conventions document — in particular the synthetic
document is present even for an empty canonical input, where it is the whole
output. -/
theorem C10_synthetic_conventions_doc (g sc ss sk : Bool)
    (cl sl : List ToolTarget) (te : List ToonRuleRecord → String)
    (h : (sc || ss || sk) = true) :
    (∀ rules, RulesProcessor.convertRulesyncFilesToToolFiles
        ⟨.cursor, g, sc, ss, sk, cl, sl, te⟩ rules =
      targetedToolRules ⟨.cursor, g, sc, ss, sk, cl, sl, te⟩ rules ++
        [cursorAdditionalConventionsRule ⟨.cursor, g, sc, ss, sk, cl, sl, te⟩]) ∧
    (∀ rules, RulesProcessor.convertRulesyncFilesToToolFiles
        ⟨.roo, g, sc, ss, sk, cl, sl, te⟩ rules =
      targetedToolRules ⟨.roo, g, sc, ss, sk, cl, sl, te⟩ rules ++
        [rooAdditionalConventionsRule ⟨.roo, g, sc, ss, sk, cl, sl, te⟩]) ∧
    (RulesProcessor.convertRulesyncFilesToToolFiles
        ⟨.cursor, g, sc, ss, sk, cl, sl, te⟩ [] =
      [cursorAdditionalConventionsRule ⟨.cursor, g, sc, ss, sk, cl, sl, te⟩]) ∧
    (RulesProcessor.convertRulesyncFilesToToolFiles
        ⟨.roo, g, sc, ss, sk, cl, sl, te⟩ [] =
      [rooAdditionalConventionsRule ⟨.roo, g, sc, ss, sk, cl, sl, te⟩]) := by
  have hcursor : ∀ rules, RulesProcessor.convertRulesyncFilesToToolFiles
      ⟨.cursor, g, sc, ss, sk, cl, sl, te⟩ rules =
    targetedToolRules ⟨.cursor, g, sc, ss, sk, cl, sl, te⟩ rules ++
      [cursorAdditionalConventionsRule ⟨.cursor, g, sc, ss, sk, cl, sl, te⟩] := by
    intro rules
    have hinj : ∀ X i, injectRootSections ⟨ToolTarget.cursor, g, sc, ss, sk, cl, sl, te⟩ X i = X :=
      fun X i => rfl
    unfold RulesProcessor.convertRulesyncFilesToToolFiles
    simp only [RulesEnv.isSimulated, h]
    simp
    split <;> rfl
  have hroo : ∀ rules, RulesProcessor.convertRulesyncFilesToToolFiles
      ⟨.roo, g, sc, ss, sk, cl, sl, te⟩ rules =
    targetedToolRules ⟨.roo, g, sc, ss, sk, cl, sl, te⟩ rules ++
      [rooAdditionalConventionsRule ⟨.roo, g, sc, ss, sk, cl, sl, te⟩] := by
    intro rules
    have hinj : ∀ X i, injectRootSections ⟨ToolTarget.roo, g, sc, ss, sk, cl, sl, te⟩ X i = X :=
      fun X i => rfl
    unfold RulesProcessor.convertRulesyncFilesToToolFiles
    simp only [RulesEnv.isSimulated, h]
    simp
    split <;> rfl
  refine ⟨hcursor, hroo, ?_, ?_⟩
  · rw [hcursor []]; rfl
  · rw [hroo []]; rfl

/-- Witness for C10 at concrete flags (only `simulateCommands` on) and a
canonical input holding a single non-root document that does not target
cursor: the output is exactly the synthetic additional-conventions
document. -/
theorem C10_synthetic_conventions_doc_witness :
    RulesProcessor.convertRulesyncFilesToToolFiles
        ⟨.cursor, false, true, false, false, [], [], fun _ => ""⟩
        [⟨⟨false, ["claudecode"], none, none⟩, "B", "b.md"⟩] =
      targetedToolRules ⟨.cursor, false, true, false, false, [], [], fun _ => ""⟩
          [⟨⟨false, ["claudecode"], none, none⟩, "B", "b.md"⟩] ++
        [cursorAdditionalConventionsRule
          ⟨.cursor, false, true, false, false, [], [], fun _ => ""⟩] ∧
    targetedToolRules ⟨.cursor, false, true, false, false, [], [], fun _ => ""⟩
        [⟨⟨false, ["claudecode"], none, none⟩, "B", "b.md"⟩] = [] :=
  ⟨(C10_synthetic_conventions_doc false true false false [] [] (fun _ => "") rfl).1 _,
   by decide⟩

/-- C2 counterexample: with every simulate flag off (so no feature satisfies
the claimed conditions), converting a lone root document for agentsmd still
adds additional-conventions content to the root body — the fixed overview
paragraph is prepended unconditionally, so the body is no longer plain
`"Intro"`. -/
theorem C2_conventions_added_without_features :
    RulesProcessor.convertRulesyncFilesToToolFiles
        ⟨.agentsmd, false, false, false, false, [], [], fun _ => ""⟩
        [⟨⟨true, ["*"], none, none⟩, "Intro", "overview.md"⟩] =
      [{ root := true,
         fileContent := conventionsOverview ++ "\n\n" ++ "Intro",
         description := none, globs := none,
         relativeDirPath := ".", relativeFilePath := "AGENTS.md" }] ∧
    conventionsOverview ++ "\n\n" ++ "Intro" ≠ "Intro" := by
  constructor
  · decide
  · decide

/-- C2 (amended): inside the additional-conventions block, the instructions
for a feature appear exactly when that feature's simulate flag is on, the
tool target is in the feature's simulated-capable list, and the injection
site supplies that feature's paths argument — but the block always contains
the overview paragraph, so conventions content reaches the root body (shown
for copilot, whose injection passes all three features) even when no feature
satisfies the conditions. -/
theorem C2_conventions_sections_iff :
    (∀ (env : RulesEnv) (c s k : Bool),
      conventionsOverview ∈ additionalConventionsSections env c s k ∧
      (commandsSectionText ∈ additionalConventionsSections env c s k ↔
        env.simulateCommands = true ∧
          env.commandsSimulatedTargets.contains env.toolTarget = true ∧ c = true) ∧
      (subagentsSectionText ∈ additionalConventionsSections env c s k ↔
        env.simulateSubagents = true ∧
          env.subagentsSimulatedTargets.contains env.toolTarget = true ∧ s = true) ∧
      (skillsSectionText ∈ additionalConventionsSections env c s k ↔
        env.simulateSkills = true ∧
          SkillsProcessor.getToolTargetsSimulated.contains env.toolTarget = true ∧ k = true)) ∧
    (∀ (g sc ss sk : Bool) (cl sl : List ToolTarget) (te : List ToonRuleRecord → String),
      RulesProcessor.convertRulesyncFilesToToolFiles ⟨.copilot, g, sc, ss, sk, cl, sl, te⟩
          [⟨⟨true, ["*"], none, none⟩, "Intro", "overview.md"⟩] =
        [{ root := true,
           fileContent :=
             generateAdditionalConventionsSection ⟨.copilot, g, sc, ss, sk, cl, sl, te⟩
               true true true ++ "Intro",
           description := none, globs := none,
           relativeDirPath := if g then "~" else ".",
           relativeFilePath := toolRuleRootFilePath .copilot }]) := by
  constructor
  · intro env c s k
    refine ⟨by simp [additionalConventionsSections], ?_, ?_, ?_⟩
    · cases c <;> cases s <;> cases k <;>
        simp [additionalConventionsSections, mem_ite_nil, Bool.and_eq_true,
          commandsText_ne_overview, commandsText_ne_subagentsText,
          commandsText_ne_skillsText, commandsText_ne_empty]
    · cases c <;> cases s <;> cases k <;>
        simp [additionalConventionsSections, mem_ite_nil, Bool.and_eq_true,
          subagentsText_ne_overview, subagentsText_ne_commandsText,
          subagentsText_ne_skillsText, subagentsText_ne_empty]
    · cases c <;> cases s <;> cases k <;>
        simp [additionalConventionsSections, mem_ite_nil, Bool.and_eq_true,
          skillsText_ne_overview, skillsText_ne_commandsText,
          skillsText_ne_subagentsText, skillsText_ne_empty]
  · intro g sc ss sk cl sl te
    unfold RulesProcessor.convertRulesyncFilesToToolFiles
    simp [targetedToolRules, isTargetedByRulesyncRule, ToolRule.fromRulesyncRule,
      RulesEnv.isSimulated, List.findIdx?, injectRootSections, setContentAt]

/-- C3: converting a canonical load of one root rule with body `"Intro"` and
one non-root style rule for claudecode (which injects the line-oriented
references block) yields the root tool document whose body starts with the
references section naming the style rule's path, description and glob,
followed by `"Intro"` unchanged; and the lines of a references block (and
the records of a TOON references block) list the non-root documents in the
insertion order of the input array, never re-sorted. -/
theorem C3_references_injection :
    (RulesProcessor.convertRulesyncFilesToToolFiles
        ⟨.claudecode, false, false, false, false, [], [], fun _ => ""⟩
        [⟨⟨true, ["*"], none, none⟩, "Intro", "overview.md"⟩,
         ⟨⟨false, ["*"], some "Style guide", some ["*.ts"]⟩,
          "Use the project style.", "style.md"⟩] =
      [{ root := true,
         fileContent :=
           "Please also reference the following rules as needed:\n\n@.claude/memories/style.md description: \"Style guide\" applyTo: \"*.ts\"\n\n" ++
             "Intro",
         description := none, globs := none,
         relativeDirPath := ".", relativeFilePath := "CLAUDE.md" },
       { root := false, fileContent := "Use the project style.",
         description := some "Style guide", globs := some ["*.ts"],
         relativeDirPath := ".claude/memories", relativeFilePath := "style.md" }]) ∧
    (∀ l1 l2 : List ToolRule,
      referencesLines (l1 ++ l2) = referencesLines l1 ++ referencesLines l2) ∧
    (∀ r : ToolRule, referencesLines [r] = if r.root then [] else [referenceLine r]) ∧
    (∀ l1 l2 : List ToolRule,
      toonRecords (l1 ++ l2) = toonRecords l1 ++ toonRecords l2) := by
  refine ⟨by decide, fun l1 l2 => ?_, fun r => ?_, fun l1 l2 => ?_⟩
  · simp [referencesLines, List.filter_append]
  · cases hr : r.root <;> simp [referencesLines, hr]
  · simp [toonRecords, List.filter_append]

end Rulesync
